import Mathlib

/-!
Verification development for the numerical-integration core of the
torchdyn repository (source files `torchdyn/numerics/solvers.py` and
`torchdyn/numerics/odeint.py`).

States are one-dimensional dense arrays, embedded as `List ℝ` with the
elementwise tensor operations used by the source.  The modules
`torchdyn/numerics/utils.py` (hairer_norm, adapt_step, init_step,
EventState) and `torchdyn/numerics/_constants.py` (Butcher tableaux) are
not part of the provided sources; the definitions below that come from
them are marked `Modelled from the spec:` and follow the specification
text.  Everything else is translated from the two source files.
-/

open scoped Classical

noncomputable section

namespace Torchdyn

/-- A dense one-dimensional numeric state (the last axis of a torch
tensor); elementwise operations below mirror the torch primitives used
by the source. -/
abbrev Tensor := List ℝ

/-- Elementwise addition (`a + b` on same-shape tensors). -/
def tadd (a b : Tensor) : Tensor := List.zipWith (· + ·) a b

/-- Elementwise subtraction. -/
def tsub (a b : Tensor) : Tensor := List.zipWith (· - ·) a b

/-- Scalar multiplication (`c * a`, broadcasting the scalar). -/
def tsmul (c : ℝ) (a : Tensor) : Tensor := a.map (fun v => c * v)

/-- Elementwise absolute value (`a.abs()`). -/
def tabs (a : Tensor) : Tensor := a.map (fun v => |v|)

/-- Elementwise maximum (`torch.max(a, b)`). -/
def tmax (a b : Tensor) : Tensor := List.zipWith (fun u v => max u v) a b

/-- Elementwise division (`a / b`). -/
def tdiv (a b : Tensor) : Tensor := List.zipWith (· / ·) a b

/-- A zero tensor of the same shape as `a` (`torch.zeros_like`). -/
def tzero (a : Tensor) : Tensor := a.map (fun _ => 0)

/-- Mean of squares of the entries of a tensor (flattening, as
`x.pow(2).mean()` does). -/
def meanSq (e : Tensor) : ℝ := (e.map (fun v => v ^ 2)).sum / e.length

/-- Modelled from the spec: `hairer_norm` from the missing
`torchdyn/numerics/utils.py`; spec section 4.G step 4 gives the Hairer
RMS norm `sqrt(mean(e_i^2))`. -/
def hairer_norm (e : Tensor) : ℝ := Real.sqrt (meanSq e)

/-- Modelled from the spec: `adapt_step` from the missing
`torchdyn/numerics/utils.py`; spec section 4.C: `factor = safety *
r^(-1/order)` clamped to `[min_factor, max_factor]`, `dt_new = dt *
factor`. -/
def adapt_step (dt errRat safety minFactor maxFactor : ℝ)
    (order : ℕ) : ℝ :=
  dt * max minFactor (min maxFactor (safety * errRat ^ (-(1 : ℝ) / (order : ℝ))))

/-- Default adaptation constants from `SolverTemplate.__init__`
(solvers.py lines 13-27): `min_factor=0.2`, `max_factor=10.0`,
`safety=0.9`. -/
def solverDefaultSafety : ℝ := 9 / 10

/-- Default `min_factor` from `SolverTemplate.__init__`. -/
def solverDefaultMinFactor : ℝ := 1 / 5

/-- Default `max_factor` from `SolverTemplate.__init__`. -/
def solverDefaultMaxFactor : ℝ := 10

/-!
### Solver step routines (solvers.py)

Each in-repo `step` returns a Python 3-tuple.  In this fork the
fixed-step solvers return `(None, None, x_sol)` and the adaptive ones
`(k_last, x_sol, x_err)`; we embed the common shape as
`Option Tensor × Option Tensor × Tensor`.
-/

/-- `Euler.step` (solvers.py lines 52-55): `x_sol = x + dt * k1` with
`k1 = f(t, x)` when not supplied; returns `(None, None, x_sol)`. -/
def eulerStep (f : ℝ → Tensor → Tensor) (x : Tensor) (t dt : ℝ)
    (k1o : Option Tensor) : Option Tensor × Option Tensor × Tensor :=
  let k1 := k1o.getD (f t x)
  (none, none, tadd x (tsmul dt k1))

/-- Modelled from the spec: the classical RK4 tableau built by
`construct_rk4` in the missing `torchdyn/numerics/_constants.py`
(spec section 4.A: 4-stage, order 4, non-embedded). -/
def rk4c : List ℝ := [1 / 2, 1 / 2, 1]

/-- `RungeKutta4.step` (solvers.py lines 65-72); returns
`(None, None, x_sol)`. -/
def rk4Step (f : ℝ → Tensor → Tensor) (x : Tensor) (t dt : ℝ)
    (k1o : Option Tensor) : Option Tensor × Option Tensor × Tensor :=
  let k1 := k1o.getD (f t x)
  let k2 := f (t + (1 / 2) * dt) (tadd x (tsmul dt (tsmul (1 / 2) k1)))
  let k3 := f (t + (1 / 2) * dt) (tadd x (tsmul dt (tadd (tsmul 0 k1) (tsmul (1 / 2) k2))))
  let k4 := f (t + 1 * dt) (tadd x (tsmul dt (tadd (tadd (tsmul 0 k1) (tsmul 0 k2)) (tsmul 1 k3))))
  let xSol := tadd x (tsmul dt (tadd (tadd (tadd (tsmul (1 / 6) k1) (tsmul (1 / 3) k2)) (tsmul (1 / 3) k3)) (tsmul (1 / 6) k4)))
  (none, none, xSol)

/-- Modelled from the spec: node vector `c` of the Dormand-Prince 5(4)
tableau built by `construct_dopri5` in the missing `_constants.py`
(spec sections 3 and 4.A). -/
def dopri5c : List ℝ := [1 / 5, 3 / 10, 4 / 5, 8 / 9, 1, 1]

/-- Modelled from the spec: solution weights `b_sol` of the
Dormand-Prince 5(4) tableau (5th-order row). -/
def dopri5bsol : List ℝ :=
  [35 / 384, 0, 500 / 1113, 125 / 192, -2187 / 6784, 11 / 84]

/-- Modelled from the spec: error weights `b_err` of the Dormand-Prince
5(4) tableau; spec section 3 calls them the embedded row and section
4.B the embedded 4th-order row, so this is the classical 4th-order
solution row (its entries sum to 1). -/
def dopri5berr : List ℝ :=
  [5179 / 57600, 0, 7571 / 16695, 393 / 640, -92097 / 339200, 187 / 2100, 1 / 40]

/-- `DormandPrince45.step` (solvers.py lines 111-128): seven stages,
`x_sol = x + dt*(bsol . k)`, `x_err = x + dt*(berr . k)` (note the
leading `x +`), returning `(k7, x_sol, x_err)`.  Coupling coefficients
`a` are the standard Dormand-Prince rows, modelled from the spec as the
tableau constants are not in src. -/
def dopri5Step (f : ℝ → Tensor → Tensor) (x : Tensor) (t dt : ℝ)
    (k1o : Option Tensor) : Option Tensor × Option Tensor × Tensor :=
  let k1 := k1o.getD (f t x)
  let k2 := f (t + (1 / 5) * dt) (tadd x (tsmul dt (tsmul (1 / 5) k1)))
  let k3 := f (t + (3 / 10) * dt)
    (tadd x (tsmul dt (tadd (tsmul (3 / 40) k1) (tsmul (9 / 40) k2))))
  let k4 := f (t + (4 / 5) * dt)
    (tadd (tadd (tadd x (tsmul (dt * (44 / 45)) k1)) (tsmul (dt * (-56 / 15)) k2))
      (tsmul (dt * (32 / 9)) k3))
  let k5 := f (t + (8 / 9) * dt)
    (tadd (tadd (tadd (tadd x (tsmul (dt * (19372 / 6561)) k1))
      (tsmul (dt * (-25360 / 2187)) k2)) (tsmul (dt * (64448 / 6561)) k3))
      (tsmul (dt * (-212 / 729)) k4))
  let k6 := f (t + 1 * dt)
    (tadd (tadd (tadd (tadd (tadd x (tsmul (dt * (9017 / 3168)) k1))
      (tsmul (dt * (-355 / 33)) k2)) (tsmul (dt * (46732 / 5247)) k3))
      (tsmul (dt * (49 / 176)) k4)) (tsmul (dt * (-5103 / 18656)) k5))
  let k7 := f (t + 1 * dt)
    (tadd (tadd (tadd (tadd (tadd (tadd x (tsmul (dt * (35 / 384)) k1))
      (tsmul (dt * 0) k2)) (tsmul (dt * (500 / 1113)) k3))
      (tsmul (dt * (125 / 192)) k4)) (tsmul (dt * (-2187 / 6784)) k5))
      (tsmul (dt * (11 / 84)) k6))
  let xSol := tadd x (tsmul dt
    (tadd (tadd (tadd (tadd (tadd (tsmul (35 / 384) k1) (tsmul 0 k2))
      (tsmul (500 / 1113) k3)) (tsmul (125 / 192) k4))
      (tsmul (-2187 / 6784) k5)) (tsmul (11 / 84) k6)))
  let xErr := tadd x (tsmul dt
    (tadd (tadd (tadd (tadd (tadd (tadd (tsmul (5179 / 57600) k1) (tsmul 0 k2))
      (tsmul (7571 / 16695) k3)) (tsmul (393 / 640) k4))
      (tsmul (-92097 / 339200) k5)) (tsmul (187 / 2100) k6)) (tsmul (1 / 40) k7)))
  (some k7, some xSol, xErr)

/-- The embedded 4th-order solution `x + dt*(berr . k)` computed from
the same stages as `dopri5Step`; used to state what the spec calls
`x_4th`.  With `berr` the embedded 4th-order row this is exactly the
expression the source returns as `x_err`. -/
def dopri5FourthOrder (f : ℝ → Tensor → Tensor) (x : Tensor) (t dt : ℝ)
    (k1o : Option Tensor) : Tensor :=
  (dopri5Step f x t dt k1o).2.2

/-!
### Named solvers (SOLVER_DICT, solvers.py lines 260-263)

Only the solvers the claims use are embedded.  `stepping_class` and
`order` are the attributes set in each class `__init__`.
-/

/-- Solver names resolved by `str_to_solver`. -/
inductive NamedSolver where
  | euler
  | rk4
  | dopri5

/-- `stepping_class` attribute: `true` means `'fixed'`. -/
def NamedSolver.isFixed : NamedSolver → Bool
  | .euler => true
  | .rk4 => true
  | .dopri5 => false

/-- `order` attribute (`Euler: 1`, `RungeKutta4: 4`,
`DormandPrince45: 6`, from each `__init__`). -/
def NamedSolver.order : NamedSolver → ℕ
  | .euler => 1
  | .rk4 => 4
  | .dopri5 => 6

/-- The `step` method of a named solver, as a 3-tuple-valued function
(argument order `f, x, t, dt, k1` as in the source). -/
def NamedSolver.step (s : NamedSolver) (f : ℝ → Tensor → Tensor)
    (x : Tensor) (t dt : ℝ) (k1o : Option Tensor) :
    Option Tensor × Option Tensor × Tensor :=
  match s with
  | .euler => eulerStep f x t dt k1o
  | .rk4 => rk4Step f x t dt k1o
  | .dopri5 => dopri5Step f x t dt k1o

/-!
### The fixed-step driver `_fixed_odeint` (odeint.py lines 372-393)

The loop body is `_, x, _ = solver.step(f, x, t, dt)`: the *middle*
component of the returned 3-tuple is bound as the new state.  For the
fixed-step solvers of this fork that slot is `None`, so `x` becomes
`None`; the next call `f(t, None)` (and the final `torch.stack`) raise.
We model a raised exception as `none`; the pre-stack accumulator keeps
`Option Tensor` entries so that the appended `None` is visible.
-/

/-- The loop of `_fixed_odeint`: `remaining` counts the steps still to
run (the source iterates `steps = 1 .. len(t_span)-1`), `steps` is the
source's counter, `cur` the current value of the Python variable `x`
(possibly `None`), `acc` the accumulator `sol`.  Calling `solver.step`
with a `None` state raises inside `f`, modelled by the `none` result. -/
def fixedGo (stepMid : ℝ → Tensor → ℝ → Option Tensor) (ts : List ℝ) :
    ℕ → ℕ → ℝ → ℝ → Option Tensor → List (Option Tensor) →
    Option (List (Option Tensor))
  | 0, _, _, _, _, acc => some acc
  | remaining + 1, steps, t, dt, cur, acc =>
    match cur with
    | none => none
    | some xv =>
      let xNext := stepMid t xv dt
      let t' := t + dt
      let dt' := if steps < ts.length - 1 then ts.getD (steps + 1) 0 - t' else dt
      fixedGo stepMid ts remaining (steps + 1) t' dt' xNext (acc ++ [xNext])

/-- The accumulator `sol` built by `_fixed_odeint` before the final
`torch.stack` (odeint.py lines 384-392); `none` when the loop itself
raised.  A `t_span` with fewer than two entries raises at
`t_span[1] - t_span[0]`. -/
def fixedOdeintSol (stepMid : ℝ → Tensor → ℝ → Option Tensor)
    (x : Tensor) (ts : List ℝ) : Option (List (Option Tensor)) :=
  if ts.length < 2 then none
  else
    fixedGo stepMid ts (ts.length - 1) 1 (ts.getD 0 0)
      (ts.getD 1 0 - ts.getD 0 0) (some x) [some x]

/-- `_fixed_odeint` (odeint.py lines 372-393): returns
`(t_span, torch.stack(sol))`; stacking raises when any accumulated
entry is `None`. -/
def fixedOdeint (stepMid : ℝ → Tensor → ℝ → Option Tensor)
    (x : Tensor) (ts : List ℝ) : Option (List ℝ × List Tensor) :=
  match fixedOdeintSol stepMid x ts with
  | none => none
  | some acc =>
    match acc.mapM id with
    | none => none
    | some states => some (ts, states)

/-!
### The entry point `odeint` (odeint.py lines 18-73)

Reversed `t_span` (line 42): integrate `g(t,x) = -f(-t,x)` on the
negated grid.  Fixed-step dispatch calls `_fixed_odeint` (line 68).
The adaptive dispatch (line 73) calls `_adaptive_odeint`, whose first
loop iteration executes `f_new, x_new, x_err, stages = solver.step(...)`
(line 324) and raises `ValueError`, because every in-repo adaptive
`step` returns a 3-tuple; when the loop body never runs (`t_span[0]`
already at the terminal time) the driver returns the initial sample
only. -/
def odeint (solver : NamedSolver) (f : ℝ → Tensor → Tensor) (x : Tensor)
    (ts : List ℝ) : Option (List ℝ × List Tensor) :=
  let desc := ts.getD 1 0 < ts.getD 0 0
  let fAdj := if desc then (fun t y => tsmul (-1) (f (-t) y)) else f
  let ts' := if desc then ts.map (fun a => -a) else ts
  if solver.isFixed then
    fixedOdeint (fun t xv dt => (solver.step fAdj xv t dt none).2.1) x ts'
  else if ts'.getD 0 0 < ts'.getD (ts'.length - 1) 0 then none
  else some ([ts'.getD 0 0], [x])

/-!
### The adaptive driver `_adaptive_odeint` (odeint.py lines 284-369)

The driver consumes `solver.step` as a 4-tuple
`f_new, x_new, x_err, stages` (line 324); it is embedded over an
abstract step function supplying those four components.  (No in-repo
adaptive solver matches this arity - see the notes on `odeint` above -
so the abstract step stands for any solver object conforming to the
interface the driver expects.)
-/

/-- The four components the adaptive/hybrid drivers unpack from
`solver.step`. -/
structure AdOut where
  fNew : Tensor
  xNew : Tensor
  xErr : Tensor
  stages : List Tensor

/-- Abstract interpolator object (`torchdyn/numerics/interpolators.py`
is not in src): `bmid` weights, `fit` and `evaluate` as called on
odeint.py lines 342-345. -/
structure Interp where
  bmid : List ℝ
  fit : ℝ → Tensor → Tensor → Tensor → Tensor → Tensor → List Tensor
  evaluate : List Tensor → ℝ → ℝ → ℝ → Tensor

/-- Sum of a list of tensors (Python `sum`, which returns the scalar 0
on an empty list - here the empty tensor). -/
def tsum : List Tensor → Tensor
  | [] => []
  | h :: rest => rest.foldl tadd h

/-- Fixed arguments of one `_adaptive_odeint` call. -/
structure AdParams where
  stepF : ℝ → Tensor → ℝ → Tensor → AdOut
  tEval : List ℝ
  T : ℝ
  atol : ℝ
  rtol : ℝ
  seminormOn : Bool
  seminormDim : ℕ
  retAll : Bool
  interp : Option Interp
  safety : ℝ
  minFactor : ℝ
  maxFactor : ℝ
  order : ℕ

/-- Mutable loop state of `_adaptive_odeint` (odeint.py lines 309-311):
`t`, `x`, `dt`, `k1`, `ckpt_counter`, `ckpt_flag`, `dt_old` (meaningful
while the flag is raised), and the accumulators `sol`, `eval_times`. -/
structure AdState where
  t : ℝ
  x : Tensor
  dt : ℝ
  k1 : Tensor
  ckptCounter : ℕ
  ckptFlag : Bool
  dtOld : ℝ
  sol : List Tensor
  evalTimes : List ℝ

/-- Scale vector `atol + rtol * torch.max(x.abs(), x_new.abs())`
(odeint.py lines 329 and 332). -/
def scaleFactorVec (atol rtol : ℝ) (x xNew : Tensor) : Tensor :=
  (tmax (tabs x) (tabs xNew)).map (fun m => atol + rtol * m)

/-- Scaled error (odeint.py lines 326-332, identical in `odeint_hybrid`
lines 252-259): with `seminorm = (True, d)` the slice `[:d]` of
`x_err`, `x`, `x_new` is taken - on a one-dimensional state this is the
leading `d` components. -/
def scaledError (atol rtol : ℝ) (semiOn : Bool) (d : ℕ)
    (x xNew xErr : Tensor) : Tensor :=
  if semiOn then
    tdiv (xErr.take d) (scaleFactorVec atol rtol (x.take d) (xNew.take d))
  else tdiv xErr (scaleFactorVec atol rtol x xNew)

/-- Step clamped to the terminal time (odeint.py lines 313-314):
`if t + dt > T: dt = T - t`. -/
def dtClamped (P : AdParams) (s : AdState) : ℝ :=
  if s.t + s.dt > P.T then P.T - s.t else s.dt

/-- The checkpoint-shrink condition (odeint.py lines 316-322): a next
requested time is inside the step and no interpolator is available. -/
def adCkptFires (P : AdParams) (s : AdState) : Prop :=
  s.ckptCounter < P.tEval.length ∧
    s.t + dtClamped P s > P.tEval.getD s.ckptCounter 0 ∧ P.interp = none

/-- The step size actually used for the trial step (after clamping and
the checkpoint shrink `dt = t_eval[ckpt_counter] - t`). -/
def adDtTrial (P : AdParams) (s : AdState) : ℝ :=
  if adCkptFires P s then P.tEval.getD s.ckptCounter 0 - s.t else dtClamped P s

/-- The trial step (odeint.py line 324). -/
def adStepOut (P : AdParams) (s : AdState) : AdOut :=
  P.stepF s.t s.x (adDtTrial P s) s.k1

/-- The scaled error of the trial step (odeint.py lines 326-332). -/
def adScaled (P : AdParams) (s : AdState) : Tensor :=
  scaledError P.atol P.rtol P.seminormOn P.seminormDim s.x
    (adStepOut P s).xNew (adStepOut P s).xErr

/-- `error_ratio = hairer_norm(error_scaled)` (odeint.py line 333). -/
def adErrNorm (P : AdParams) (s : AdState) : ℝ :=
  hairer_norm (adScaled P s)

/-- `ckpt_flag` after the checkpoint block (raised on firing, otherwise
the incoming value, which the driver keeps `False`). -/
def adFlagMid (P : AdParams) (s : AdState) : Bool :=
  if adCkptFires P s then true else s.ckptFlag

/-- `dt_old` after the checkpoint block. -/
def adDtOldMid (P : AdParams) (s : AdState) : ℝ :=
  if adCkptFires P s then dtClamped P s else s.dtOld

/-- The step size entering `adapt_step` after the restore
`if ckpt_flag: dt = dt_old - dt` (odeint.py lines 360-362). -/
def adDtRestored (P : AdParams) (s : AdState) : ℝ :=
  if adFlagMid P s then adDtOldMid P s - adDtTrial P s else adDtTrial P s

/-- The adapted step size for the next iteration (odeint.py lines
364-368). -/
def adDtNext (P : AdParams) (s : AdState) : ℝ :=
  adapt_step (adDtRestored P s) (adErrNorm P s) P.safety P.minFactor
    P.maxFactor P.order

/-- The `while` loop of checkpointing via interpolation (odeint.py
lines 340-348): appends interpolated samples for every requested time
strictly inside the accepted step, advancing `ckpt_counter`.  The fuel
is `len(t_eval) - ckpt_counter`, enough for the guard to fail on its
own. -/
def interpGo (I : Interp) (tEval : List ℝ) (t dt : ℝ)
    (evalAt : ℝ → Tensor) :
    ℕ → ℕ → List Tensor → List ℝ → List Tensor × List ℝ × ℕ
  | 0, c, sol, times => (sol, times, c)
  | fuel + 1, c, sol, times =>
    if c < tEval.length ∧ t + dt > tEval.getD c 0 then
      interpGo I tEval t dt evalAt fuel (c + 1)
        (sol ++ [evalAt (tEval.getD c 0)]) (times ++ [tEval.getD c 0])
    else (sol, times, c)

/-- Accumulators and counter after the interpolation block of an
accepted step: the interpolator (when present) fits its coefficients
once from `(dt, k1, f_new, x, x_new, x_mid)` and evaluates them at each
checkpointed time. -/
def adInterpStage (P : AdParams) (s : AdState) :
    List Tensor × List ℝ × ℕ :=
  match P.interp with
  | none => (s.sol, s.evalTimes, s.ckptCounter)
  | some I =>
    let out := adStepOut P s
    let dt := adDtTrial P s
    let xMid := tadd s.x (tsmul dt
      (tsum ((List.range out.stages.length).map
        (fun i => tsmul (I.bmid.getD i 0) (out.stages.getD i [])))))
    let coefs := I.fit dt s.k1 out.fNew s.x out.xNew xMid
    interpGo I P.tEval s.t dt
      (fun tau => I.evaluate coefs s.t (s.t + dt) tau)
      (P.tEval.length - s.ckptCounter) s.ckptCounter s.sol s.evalTimes

/-- One iteration of the `while t < T` loop of `_adaptive_odeint`
(odeint.py lines 312-368).  On acceptance (`error_ratio <= 1`) the
endpoint is appended exactly when it equals `t_eval[ckpt_counter]` or
`return_all_eval` is set (line 350; the index is in range in every
driver-reachable state), and `t`, `x`, `k1` are committed; on rejection
the state is unchanged.  In both cases `dt` is restored if the
checkpoint flag was raised and then adapted. -/
def adBody (P : AdParams) (s : AdState) : AdState :=
  let out := adStepOut P s
  let dtT := adDtTrial P s
  if adErrNorm P s ≤ 1 then
    let stage := adInterpStage P s
    let hit := s.t + dtT = P.tEval.getD stage.2.2 0
    { t := s.t + dtT
      x := out.xNew
      dt := adDtNext P s
      k1 := out.fNew
      ckptCounter := if hit then stage.2.2 + 1 else stage.2.2
      ckptFlag := false
      dtOld := adDtOldMid P s
      sol := if hit ∨ P.retAll then stage.1 ++ [out.xNew] else stage.1
      evalTimes :=
        if hit ∨ P.retAll then stage.2.1 ++ [s.t + dtT] else stage.2.1 }
  else
    { s with dt := adDtNext P s, ckptFlag := false, dtOld := adDtOldMid P s }

/-- The `while t < T` loop of `_adaptive_odeint` with explicit fuel. -/
def adLoop (P : AdParams) : ℕ → AdState → AdState
  | 0, s => s
  | fuel + 1, s => if s.t < P.T then adLoop P fuel (adBody P s) else s

/-!
### The hybrid driver `odeint_hybrid` (odeint.py lines 136-281)

Same abstract step interface as the adaptive driver (the source unpacks
`f_new, x_new, x_err, _` on line 199), with `k1` optional because the
driver resets it to `None` after a jump (line 248).  The event-state
vector `event_states` is initialised once (line 164) and never
reassigned inside the loop, so rising edges are always counted against
it; it is carried unchanged in the state.
-/

/-- An event callback: `check_event` indicator and `jump_map`
transformation (spec section 3). -/
structure Callback where
  checkEvent : ℝ → Tensor → Bool
  jumpMap : ℝ → Tensor → Tensor

/-- Count of rising edges
`sum([(a != b) & (b == False) for a, b in zip(new, old)])`
(odeint.py lines 203-204). -/
def countRising (newEv old : List Bool) : ℕ :=
  ((List.zip newEv old).filter (fun p => p.1 ≠ p.2 ∧ p.2 = false)).length

/-- Fixed arguments of one `odeint_hybrid` call. -/
structure HybParams where
  stepF : ℝ → Tensor → ℝ → Option Tensor → AdOut
  callbacks : List Callback
  tEval : List ℝ
  T : ℝ
  atol : ℝ
  rtol : ℝ
  eventTol : ℝ
  jSpan : ℕ
  seminormOn : Bool
  seminormDim : ℕ
  safety : ℝ
  minFactor : ℝ
  maxFactor : ℝ
  order : ℕ

/-- Mutable loop state of `odeint_hybrid`. -/
structure HybState where
  t : ℝ
  x : Tensor
  dt : ℝ
  k1 : Option Tensor
  ckptCounter : ℕ
  ckptFlag : Bool
  dtOld : ℝ
  jnum : ℕ
  eventStates : List Bool
  sol : List Tensor
  evalTimes : List ℝ

/-- Clamp to the terminal time (odeint.py lines 187-188). -/
def hybDtClamped (P : HybParams) (s : HybState) : ℝ :=
  if s.t + s.dt > P.T then P.T - s.t else s.dt

/-- Checkpoint condition (odeint.py line 191); the hybrid driver has no
interpolator branch. -/
def hybCkptFires (P : HybParams) (s : HybState) : Prop :=
  s.ckptCounter < P.tEval.length ∧
    s.t + hybDtClamped P s > P.tEval.getD s.ckptCounter 0

/-- Trial step size after the checkpoint shrink (odeint.py line 194). -/
def hybDtTrial (P : HybParams) (s : HybState) : ℝ :=
  if hybCkptFires P s then P.tEval.getD s.ckptCounter 0 - s.t
  else hybDtClamped P s

/-- `ckpt_counter` after the checkpoint block: the hybrid driver
increments it *inside* the shrink branch (odeint.py line 195), before
the trial step is evaluated. -/
def hybCkptAfter (P : HybParams) (s : HybState) : ℕ :=
  if hybCkptFires P s then s.ckptCounter + 1 else s.ckptCounter

/-- `ckpt_flag` after the checkpoint block (odeint.py line 193). -/
def hybFlagMid (P : HybParams) (s : HybState) : Bool :=
  if hybCkptFires P s then true else s.ckptFlag

/-- `dt_old` after the checkpoint block (odeint.py line 193). -/
def hybDtOldMid (P : HybParams) (s : HybState) : ℝ :=
  if hybCkptFires P s then hybDtClamped P s else s.dtOld

/-- The trial step (odeint.py line 199). -/
def hybStepOut (P : HybParams) (s : HybState) : AdOut :=
  P.stepF s.t s.x (hybDtTrial P s) s.k1

/-- Event indicators at the trial endpoint (odeint.py line 202). -/
def hybNewEv (P : HybParams) (s : HybState) : List Bool :=
  P.callbacks.map (fun cb => cb.checkEvent (s.t + hybDtTrial P s) (hybStepOut P s).xNew)

/-- Number of rising edges of the trial step (odeint.py lines
203-204). -/
def hybTrig (P : HybParams) (s : HybState) : ℕ :=
  countRising (hybNewEv P s) s.eventStates

/-- Scaled error of the hybrid trial step (odeint.py lines 252-259). -/
def hybScaled (P : HybParams) (s : HybState) : Tensor :=
  scaledError P.atol P.rtol P.seminormOn P.seminormDim s.x
    (hybStepOut P s).xNew (hybStepOut P s).xErr

/-- `error_ratio` of the hybrid trial step (odeint.py line 261). -/
def hybErrNorm (P : HybParams) (s : HybState) : ℝ :=
  hairer_norm (hybScaled P s)

/-- Step size entering `adapt_step` after the restore (odeint.py lines
271-273). -/
def hybDtRestored (P : HybParams) (s : HybState) : ℝ :=
  if hybFlagMid P s then hybDtOldMid P s - hybDtTrial P s
  else hybDtTrial P s

/-- Adapted step size (odeint.py lines 275-279). -/
def hybDtNext (P : HybParams) (s : HybState) : ℝ :=
  adapt_step (hybDtRestored P s) (hybErrNorm P s) P.safety P.minFactor
    P.maxFactor P.order

/-- State of the event-bisection inner loop (odeint.py line 210):
`t_inner`, `dt_inner`, `x_inner`, the (outer) `k1` it updates, the last
computed `new_event_states`, and the iteration counter `niters`. -/
structure BisState where
  tInner : ℝ
  dtInner : ℝ
  xInner : Tensor
  k1 : Option Tensor
  newEv : List Bool
  niters : ℕ

/-- One iteration of the bisection loop body (odeint.py lines 214-228):
halve `dt_inner`, take a trial step, re-check the callbacks against the
driver's `event_states`; with no rising edge advance the bracket start
and reset `dt_inner` to the outer `dt`, otherwise keep the halved
`dt_inner`. -/
def bisBody (P : HybParams) (dtReset : ℝ) (evs : List Bool)
    (b : BisState) : BisState :=
  let dtI := b.dtInner / 2
  let out := P.stepF b.tInner b.xInner dtI b.k1
  let newEv := P.callbacks.map (fun cb => cb.checkEvent (b.tInner + dtI) out.xNew)
  let trig := countRising newEv evs
  if trig = 0 then
    { tInner := b.tInner + dtI, dtInner := dtReset, xInner := out.xNew,
      k1 := some out.fNew, newEv := newEv, niters := b.niters + 1 }
  else
    { b with dtInner := dtI, newEv := newEv, niters := b.niters + 1 }

/-- The bisection loop `while niters < max_iters and event_tol <
dt_inner` (odeint.py line 213) with `max_iters = 100`; the fuel is an
upper bound on the iterations still allowed, and the guard alone stops
the loop whenever `niters + fuel >= 100` initially. -/
def bisect (P : HybParams) (dtReset : ℝ) (evs : List Bool) :
    ℕ → BisState → BisState
  | 0, b => b
  | fuel + 1, b =>
    if b.niters < 100 ∧ P.eventTol < b.dtInner then
      bisect P dtReset evs fuel (bisBody P dtReset evs b)
    else b

/-- Initial bisection state (odeint.py line 210): `t_inner = t`,
`dt_inner = dt`, `x_inner = x`, `niters = 0`, with the outer
`new_event_states` as the last computed check. -/
def bisInit (P : HybParams) (s : HybState) : BisState :=
  { tInner := s.t, dtInner := hybDtTrial P s, xInner := s.x,
    k1 := s.k1, newEv := hybNewEv P s, niters := 0 }

/-- Result of the bisection search started from the outer state. -/
def bisResult (P : HybParams) (s : HybState) : BisState :=
  bisect P (hybDtTrial P s) s.eventStates 100 (bisInit P s)

/-- One iteration of the `while t < T and jnum < j_span` loop of
`odeint_hybrid` (odeint.py lines 184-279).  On a triggered event the
bisection bracket is adopted, the pre- and post-jump samples are
appended, `k1` is reset and `dt` restored to the pre-event trial value;
`min([...])` over the indices of the final event check raises when that
check has no `True` entry, modelled by `none`.  Otherwise the step goes
through error control exactly as in the adaptive driver, except that
every accepted endpoint is appended. -/
def hybBody (P : HybParams) (s : HybState) : Option HybState :=
  let dtT := hybDtTrial P s
  let out := hybStepOut P s
  if 0 < hybTrig P s then
    let r := bisResult P s
    match r.newEv.findIdx? (fun b => b = true) with
    | none => none
    | some i =>
      match P.callbacks.get? i with
      | none => none
      | some cb =>
        let xPost := cb.jumpMap r.tInner r.xInner
        some { t := r.tInner, x := xPost, dt := dtT, k1 := none,
               ckptCounter := hybCkptAfter P s, ckptFlag := hybFlagMid P s,
               dtOld := hybDtOldMid P s, jnum := s.jnum,
               eventStates := s.eventStates,
               sol := s.sol ++ [r.xInner, xPost],
               evalTimes := s.evalTimes ++ [r.tInner, r.tInner] }
  else
    if hybErrNorm P s ≤ 1 then
      some { t := s.t + dtT, x := out.xNew, dt := hybDtNext P s,
             k1 := some out.fNew, ckptCounter := hybCkptAfter P s,
             ckptFlag := false, dtOld := hybDtOldMid P s, jnum := s.jnum,
             eventStates := s.eventStates,
             sol := s.sol ++ [out.xNew],
             evalTimes := s.evalTimes ++ [s.t + dtT] }
    else
      some { s with
              dt := hybDtNext P s
              ckptCounter := hybCkptAfter P s
              ckptFlag := false
              dtOld := hybDtOldMid P s }

/-- The outer loop of `odeint_hybrid` with explicit fuel; a raised
exception in the body aborts the whole run. -/
def hybLoop (P : HybParams) : ℕ → HybState → Option HybState
  | 0, s => some s
  | fuel + 1, s =>
    if s.t < P.T ∧ s.jnum < P.jSpan then
      match hybBody P s with
      | none => none
      | some s' => hybLoop P fuel s'
    else some s

/-!
### Multiple shooting: `MSZero.root_solve` (solvers.py lines 211-227)
and `odeint_mshooting` (odeint.py lines 120-132)

The source propagates batches of boundary states with
`odeint_func(f, B[i-1:], sub_t_span, solver)[1][-1]`; since the batched
call acts elementwise on the boundary states, the two nested solvers
are embedded as abstract one-subinterval propagators `coarse`, `fine`
(each standing for `odeint_func(f, ., sub_t_span, method)[1][-1]`).
-/

/-- The inner `B_in` recursion of a Parareal round (solvers.py lines
222-225): starting from `B[i-1]`, after `k` updates the value is
`coarse(B_in) - B_coarse[k-1] + B_fine[k-1]`. -/
def binSeq (coarse : Tensor → Tensor) (Bc Bf : List Tensor)
    (start : Tensor) : ℕ → Tensor
  | 0 => start
  | k + 1 => tadd (tsub (coarse (binSeq coarse Bc Bf start k)) (Bc.getD k []))
      (Bf.getD k [])

/-- One round of `MSZero.root_solve` at loop index `i` (solvers.py
lines 217-226): `B_coarse`/`B_fine` propagate the tail `B[i-1:]`,
`B_out` starts as `torch.zeros_like(B)` with `B_out[:i] = B[:i]`, the
loop fills entries `m = i .. n_subinterv - 1`, and every other entry
(in particular the terminal index `n_subinterv`) keeps its zeros. -/
def pararealRound (coarse fine : Tensor → Tensor) (nSub i : ℕ)
    (B : List Tensor) : List Tensor :=
  let Bc := (B.drop (i - 1)).map coarse
  let Bf := (B.drop (i - 1)).map fine
  (List.range B.length).map (fun m =>
    if m < i then B.getD m []
    else if m < nSub then binSeq coarse Bc Bf (B.getD (i - 1) []) (m - i + 1)
    else tzero (B.getD m []))

/-- The `i = 0; while i <= maxiter: i += 1; ...` loop of `root_solve`:
`remaining` counts the iterations left, `i` is the source's counter
value before its increment. -/
def rootSolveGo (round : ℕ → List Tensor → List Tensor) :
    ℕ → ℕ → List Tensor → List Tensor
  | 0, _, B => B
  | remaining + 1, i, B => rootSolveGo round remaining (i + 1) (round (i + 1) B)

/-- `MSZero.root_solve` (solvers.py lines 211-227): `n_subinterv =
len(t_span) - 1`, loop body executed for `i = 1 .. maxiter + 1`. -/
def msZeroRootSolve (coarse fine : Tensor → Tensor) (tspanLen maxiter : ℕ)
    (B : List Tensor) : List Tensor :=
  rootSolveGo (pararealRound coarse fine (tspanLen - 1)) (maxiter + 1) 0 B

/-- `odeint_mshooting` (odeint.py lines 120-132) with the first guess
`B0` supplied: returns `(t_span, B)` where `B` is the `root_solve`
result. -/
def odeintMShooting (coarse fine : Tensor → Tensor) (ts : List ℝ)
    (B0 : List Tensor) (maxiter : ℕ) : List ℝ × List Tensor :=
  (ts, msZeroRootSolve coarse fine ts.length maxiter B0)

/-!
### The error computation on batched (two-dimensional) states

The spec's data model allows states of shape `[..., D]` with leading
batch axes.  The slicing `x_err[:state_dim]` on odeint.py lines 255 and
328 acts on the *first* axis of the tensor; on a batched state this is
the batch axis, not the state dimension.  The fragment below is the
same lines translated for a two-dimensional state (a list of rows). -/

/-- Scaled error of odeint.py lines 326-332 for a 2-D state; `[:d]`
takes the leading `d` rows (first axis). -/
def scaledError2 (atol rtol : ℝ) (semiOn : Bool) (d : ℕ)
    (x xNew xErr : List Tensor) : List Tensor :=
  if semiOn then
    List.zipWith tdiv (xErr.take d)
      (List.zipWith (scaleFactorVec atol rtol) (x.take d) (xNew.take d))
  else
    List.zipWith tdiv xErr (List.zipWith (scaleFactorVec atol rtol) x xNew)

/-- Modelled from the spec: `hairer_norm` on a 2-D tensor; the RMS mean
runs over all elements. -/
def hairer_norm2 (e : List Tensor) : ℝ := Real.sqrt (meanSq e.flatten)

/-!
### Concrete instances used by the counterexamples and witnesses below
-/

/-- The identity-in-state vector field `f(t, x) = x`. -/
def c1f : ℝ → Tensor → Tensor := fun _ y => y

/-- The zero vector field (every stage slope vanishes). -/
def c2f : ℝ → Tensor → Tensor := fun _ _ => [0]

/-- Adaptive-driver parameters for the C4 witness: a step function with
zero error, grid `[0, 2]`, `atol = 1`, `rtol = 0`, default adaptation
constants, order 1. -/
def c4P : AdParams :=
  { stepF := fun _ _ _ _ => ⟨[0], [0], [0], []⟩, tEval := [2], T := 2,
    atol := 1, rtol := 0, seminormOn := false, seminormDim := 0,
    retAll := false, interp := none, safety := 9 / 10, minFactor := 1 / 5,
    maxFactor := 10, order := 1 }

/-- Adaptive-driver state for the C4 witness. -/
def c4S : AdState :=
  { t := 0, x := [0], dt := 1, k1 := [0], ckptCounter := 0,
    ckptFlag := false, dtOld := 0, sol := [[0]], evalTimes := [0] }

/-- Adaptive-driver parameters for C5: the trial of size 1 (the
checkpoint-shrunk step) reports error 2 and is rejected. -/
def c5P : AdParams :=
  { stepF := fun _ _ dt _ => ⟨[0], [0], if dt = 1 then [2] else [0], []⟩,
    tEval := [1, 2], T := 2, atol := 1, rtol := 0, seminormOn := false,
    seminormDim := 0, retAll := false, interp := none, safety := 9 / 10,
    minFactor := 1 / 5, maxFactor := 10, order := 1 }

/-- Adaptive-driver state for C5: `t = 0`, `dt = 3/2`, so the step is
shrunk to land on the requested time 1. -/
def c5S : AdState :=
  { t := 0, x := [0], dt := 3 / 2, k1 := [0], ckptCounter := 0,
    ckptFlag := false, dtOld := 0, sol := [[0]], evalTimes := [0] }

/-- Adaptive-driver state for the C5 witness: a plain (non-checkpoint)
rejected trial of size 1/2 with error 3. -/
def c5Sb : AdState :=
  { t := 0, x := [0], dt := 1 / 2, k1 := [0], ckptCounter := 0,
    ckptFlag := false, dtOld := 0, sol := [[0]], evalTimes := [0] }

/-- Step function for the C5 witness: error 3 on a trial of size 1/2. -/
def c5Pb : AdParams :=
  { stepF := fun _ _ dt _ => ⟨[0], [0], if dt = 1 / 2 then [3] else [0], []⟩,
    tEval := [1, 2], T := 2, atol := 1, rtol := 0, seminormOn := false,
    seminormDim := 0, retAll := false, interp := none, safety := 9 / 10,
    minFactor := 1 / 5, maxFactor := 10, order := 1 }

/-- Batched 2-D state for C7 (two batch rows, two state components). -/
def c7x : List Tensor := [[0, 0], [0, 0]]

/-- C7 error tensor whose only nonzero entry sits at batch row 0,
*second* state component - outside the leading `d = 1` state slice. -/
def c7errA : List Tensor := [[0, 2], [0, 0]]

/-- C7 error tensor that vanishes everywhere. -/
def c7errB : List Tensor := [[0, 0], [0, 0]]

/-- Coarse propagator for C8: add 1 to every component. -/
def c8coarse : Tensor → Tensor := fun b => b.map (fun v => v + 1)

/-- Fine propagator for C8: multiply every component by 3. -/
def c8fine : Tensor → Tensor := fun b => b.map (fun v => 3 * v)

/-- Initial shooting parameters for C8 (four boundaries). -/
def c8B : List Tensor := [[1], [1], [1], [1]]

/-- Event callback for C9: fires exactly on states with two components;
the jump replaces the state by `[9]`. -/
def c9cb : Callback :=
  { checkEvent := fun _ x => x.length == 2, jumpMap := fun _ _ => [9] }

/-- Hybrid parameters for the C9 counterexample: the outer trial (of
size 1) lands on a two-component state and triggers the callback, but
every inner bisection trial returns `[0]`, so no inner check ever sees
a rising edge and all 100 iterations advance. -/
def c9P : HybParams :=
  { stepF := fun _ _ dt _ => ⟨[0], if dt = 1 then [1, 1] else [0], [0], []⟩,
    callbacks := [c9cb], tEval := [10], T := 10, atol := 1, rtol := 0,
    eventTol := 1 / 100, jSpan := 5, seminormOn := false, seminormDim := 0,
    safety := 9 / 10, minFactor := 1 / 5, maxFactor := 10, order := 1 }

/-- Hybrid state for the C9 counterexample. -/
def c9S : HybState :=
  { t := 0, x := [0], dt := 1, k1 := some [0], ckptCounter := 0,
    ckptFlag := false, dtOld := 0, jnum := 0, eventStates := [false],
    sol := [[0]], evalTimes := [0] }

/-- The bisection state after `k` iterations of the C9 counterexample
run: every iteration advances by `1/2` and resets `dt_inner`. -/
def c9St (k : ℕ) : BisState :=
  { tInner := (k : ℝ) / 2, dtInner := 1, xInner := [0], k1 := some [0],
    newEv := if k = 0 then [true] else [false], niters := k }

/-- Hybrid parameters for the C9 witness: the callback fires and
`dt <= event_tol` stops the bisection immediately with the rising edge
still recorded. -/
def c9Pb : HybParams :=
  { stepF := fun _ _ _ _ => ⟨[0], [5, 5], [0], []⟩,
    callbacks := [c9cb], tEval := [10], T := 10, atol := 1, rtol := 0,
    eventTol := 2, jSpan := 5, seminormOn := false, seminormDim := 0,
    safety := 9 / 10, minFactor := 1 / 5, maxFactor := 10, order := 1 }

/-- Hybrid state for the C9 witness. -/
def c9Sb : HybState :=
  { t := 0, x := [0], dt := 1, k1 := some [0], ckptCounter := 0,
    ckptFlag := false, dtOld := 0, jnum := 0, eventStates := [false],
    sol := [[0]], evalTimes := [0] }

/-- Hybrid parameters for the C10 run: grid `[0, 1, 2]` (`t_eval = [1,
2]`, `T = 2`), no callbacks, `atol = 1`, `rtol = 0`, order 1; the step
function reports error 2 (rejection) exactly on the checkpoint-shrunk
trial of size 1 and error 9/100 (acceptance, with step growth factor
10) otherwise. -/
def c10P : HybParams :=
  { stepF := fun _ _ dt _ => ⟨[0], [0], if dt = 1 then [2] else [9 / 100], []⟩,
    callbacks := [], tEval := [1, 2], T := 2, atol := 1, rtol := 0,
    eventTol := 1 / 1000, jSpan := 1, seminormOn := false, seminormDim := 0,
    safety := 9 / 10, minFactor := 1 / 5, maxFactor := 10, order := 1 }

/-- Initial hybrid state for the C10 run: `t = 0`, `dt = 3/2`. -/
def c10S : HybState :=
  { t := 0, x := [0], dt := 3 / 2, k1 := some [0], ckptCounter := 0,
    ckptFlag := false, dtOld := 0, jnum := 0, eventStates := [],
    sol := [[0]], evalTimes := [0] }

/-- C10 run, state after the first iteration: the step was shrunk to
land on the requested time 1, the counter was incremented to 1, and the
trial was rejected (nothing appended). -/
def c10S1 : HybState :=
  { t := 0, x := [0], dt := 9 / 40, k1 := some [0], ckptCounter := 1,
    ckptFlag := false, dtOld := 3 / 2, jnum := 0, eventStates := [],
    sol := [[0]], evalTimes := [0] }

/-- C10 run, state after the second iteration (a plain accepted step of
size 9/40). -/
def c10S2 : HybState :=
  { t := 9 / 40, x := [0], dt := 9 / 4, k1 := some [0], ckptCounter := 1,
    ckptFlag := false, dtOld := 3 / 2, jnum := 0, eventStates := [],
    sol := [[0], [0]], evalTimes := [0, 9 / 40] }

/-- C10 run, final state: the third step is clamped to the terminal
time 2 and accepted; the requested time 1 was never sampled. -/
def c10S3 : HybState :=
  { t := 2, x := [0], dt := 71 / 4, k1 := some [0], ckptCounter := 1,
    ckptFlag := false, dtOld := 3 / 2, jnum := 0, eventStates := [],
    sol := [[0], [0], [0]], evalTimes := [0, 9 / 40, 2] }

/-!
## Supporting lemmas
-/

/-- The mean of squares is nonnegative. -/
theorem meanSq_nonneg (e : Tensor) : 0 ≤ meanSq e := by
  unfold meanSq
  apply div_nonneg _ (Nat.cast_nonneg _)
  apply List.sum_nonneg
  intro v hv
  simp only [List.mem_map] at hv
  obtain ⟨u, _, rfl⟩ := hv
  positivity

/-- The Hairer norm of a singleton tensor is the absolute value of its
entry. -/
theorem hairer_norm_singleton (a : ℝ) : hairer_norm [a] = |a| := by
  unfold hairer_norm meanSq
  simp [Real.sqrt_sq_eq_abs]

/-- Comparison with 1 can be carried out on the mean of squares. -/
theorem hairer_norm_le_one_iff (e : Tensor) : hairer_norm e ≤ 1 ↔ meanSq e ≤ 1 := by
  unfold hairer_norm
  constructor
  · intro h
    have h0 := meanSq_nonneg e
    have hs := Real.sqrt_nonneg (meanSq e)
    have hm := Real.mul_self_sqrt h0
    nlinarith
  · intro h
    calc Real.sqrt (meanSq e) ≤ Real.sqrt 1 := Real.sqrt_le_sqrt h
    _ = 1 := Real.sqrt_one

/-- Evaluation of `adapt_step` at order 1: the exponent `-1/order` is
`-1`. -/
theorem adapt_step_order_one (dt r safety minF maxF : ℝ) :
    adapt_step dt r safety minF maxF 1 = dt * max minF (min maxF (safety * r⁻¹)) := by
  unfold adapt_step
  norm_num [Real.rpow_neg_one]

/-!
## Claims
-/

/-- Claim C1.  The claim states that the integration entry points
return `(times, states)` with `times = t_span` and `states[0] = x`.
The code cannot: for fixed-step runs `_fixed_odeint` binds the middle
slot of the step's 3-tuple (`None` for Euler/RungeKutta4) as the new
state, so the accumulator receives `None` and the final `torch.stack`
raises; for adaptive runs `_adaptive_odeint` unpacks four values from
the 3-tuple returned by `DormandPrince45.step` and raises `ValueError`.
Both failures are shown on `f(t,x) = x`, `x = [1]`, `t_span = [0, 1]`:
the embedded entry point yields an exception (`none`), not a pair. -/
theorem C1_entry_points_broken :
    odeint NamedSolver.euler c1f [1] [0, 1] = none ∧
      odeint NamedSolver.dopri5 c1f [1] [0, 1] = none := by
  have hne : ¬ (([0, 1] : List ℝ).getD 1 0 < ([0, 1] : List ℝ).getD 0 0) := by
    norm_num
  constructor
  · unfold odeint
    simp only [hne, if_false]
    rfl
  · unfold odeint
    simp only [hne, if_false]
    have hlt : ([0, 1] : List ℝ).getD 0 0 <
        ([0, 1] : List ℝ).getD (([0, 1] : List ℝ).length - 1) 0 := by norm_num
    simp only [NamedSolver.isFixed, hlt, if_true, Bool.false_eq_true, if_false]

/-- Claim C2.  The claim states `x_err = x_sol - x_4th` (a difference).
The code computes `x_err = x + dt*(berr . k)`, the absolute embedded
solution state: on the zero vector field with `x = [1]`, `t = 0`,
`dt = 1` every stage slope vanishes, so `x_sol = [1]`, the embedded
4th-order solution is `[1]`, their difference is `[0]`, yet the step
returns `x_err = [1]`.  The FSAL part of the claim holds here:
`k_last = f(t+dt, x_sol)`. -/
theorem C2_dopri5_xerr_absolute :
    (dopri5Step c2f [1] 0 1 none).2.2 = [1] ∧
      (dopri5Step c2f [1] 0 1 none).2.1 = some [1] ∧
      tsub [1] (dopri5FourthOrder c2f [1] 0 1 none) = [0] ∧
      ([1] : Tensor) ≠ [0] ∧
      (dopri5Step c2f [1] 0 1 none).1 = some (c2f (0 + 1) [1]) := by
  refine ⟨?_, ?_, ?_, ?_, ?_⟩
  · simp [dopri5Step, c2f, tadd, tsmul]
  · simp [dopri5Step, c2f, tadd, tsmul]
  · simp [dopri5FourthOrder, dopri5Step, c2f, tadd, tsmul, tsub]
  · intro h
    have := List.head_eq_of_cons_eq h
    norm_num at this
  · simp [dopri5Step, c2f]

/-- Claim C3.  The claim states that the fixed-step driver with Euler
appends one state per grid point, each equal to `x + dt*f(t, x)`.  On
`f(t,x) = x`, `x = [1]`, `t_span = [0, 1]` the driver's accumulator is
`[x, None]`: the appended entry is the `None` of the step's middle
slot, not the Euler update `[2]` (which `Euler.step` returns in the
third slot). -/
theorem C3_fixed_euler_appends_none :
    fixedOdeintSol (fun t xv dt => (eulerStep c1f xv t dt none).2.1) [1] [0, 1]
        = some [some [1], none] ∧
      (eulerStep c1f [1] 0 1 none).2.2 = [2] ∧
      (none : Option Tensor) ≠ some [2] := by
  refine ⟨?_, ?_, ?_⟩
  · simp [fixedOdeintSol, fixedGo, eulerStep]
  · simp [eulerStep, c1f, tadd, tsmul]
    norm_num
  · simp

/-- Claim C6 (counterexample).  The claim states that for descending
`t_span` the returned times equal the requested descending `t_span`.
On `t_span = [1, 0]` with the Euler solver the embedded `odeint` does
not return those times (the run raises; and the driver's returned
times are the negated ascending grid, never negated back). -/
theorem C6_times_not_mapped_back :
    (odeint NamedSolver.euler c1f [1] [1, 0]).map Prod.fst ≠ some [1, 0] := by
  have hd : ([1, 0] : List ℝ).getD 1 0 < ([1, 0] : List ℝ).getD 0 0 := by
    norm_num
  have : odeint NamedSolver.euler c1f [1] [1, 0] = none := by
    unfold odeint
    simp only [hd, if_true]
    rfl
  rw [this]
  simp

/-- Claim C6 (amended).  For a descending `t_span` and a fixed-step
solver, `odeint` integrates the adjusted field `g(t,x) = -f(-t,x)` over
the negated (ascending) grid and returns that driver result as-is: the
times are the negated grid, not mapped back to the requested
descending `t_span`. -/
theorem C6_reversed_negated_grid (solver : NamedSolver)
    (f : ℝ → Tensor → Tensor) (x : Tensor) (ts : List ℝ)
    (hdesc : ts.getD 1 0 < ts.getD 0 0) (hfix : solver.isFixed = true) :
    odeint solver f x ts =
      fixedOdeint
        (fun t xv dt =>
          (solver.step (fun u y => tsmul (-1) (f (-u) y)) xv t dt none).2.1)
        x (ts.map (fun a => -a)) := by
  unfold odeint
  simp only [hdesc, if_true, hfix]

/-- Witness for C6_reversed_negated_grid at `t_span = [1, 0]` with the
Euler solver. -/
theorem C6_reversed_witness :
    (([1, 0] : List ℝ).getD 1 0 < ([1, 0] : List ℝ).getD 0 0 ∧
        NamedSolver.euler.isFixed = true) ∧
      odeint NamedSolver.euler c1f [1] [1, 0] =
        fixedOdeint
          (fun t xv dt =>
            (NamedSolver.euler.step (fun u y => tsmul (-1) (c1f (-u) y)) xv t dt none).2.1)
          [1] (([1, 0] : List ℝ).map (fun a => -a)) := by
  have h1 : ([1, 0] : List ℝ).getD 1 0 < ([1, 0] : List ℝ).getD 0 0 := by norm_num
  have h2 : NamedSolver.euler.isFixed = true := rfl
  exact ⟨⟨h1, h2⟩, C6_reversed_negated_grid NamedSolver.euler c1f [1] [1, 0] h1 h2⟩

/-- Claim C4.  In the adaptive driver a trial step is committed (time
and state advance, and the accumulator can only grow on commitment) if
and only if the Hairer norm of the scaled error is at most 1; hence
every committed step satisfies the norm bound.  The hypothesis rules
out the degenerate zero-length trial step, for which a commit would not
move `t`. -/
theorem C4_accept_iff_hairer_norm (P : AdParams) (s : AdState)
    (hdt : s.t + adDtTrial P s ≠ s.t) :
    (((adBody P s).t ≠ s.t ∨ (adBody P s).sol ≠ s.sol) ↔ adErrNorm P s ≤ 1) ∧
      (adErrNorm P s ≤ 1 →
        (adBody P s).t = s.t + adDtTrial P s ∧
          (adBody P s).x = (adStepOut P s).xNew ∧
          (adBody P s).k1 = (adStepOut P s).fNew) ∧
      (¬ adErrNorm P s ≤ 1 →
        (adBody P s).t = s.t ∧ (adBody P s).x = s.x ∧
          (adBody P s).sol = s.sol ∧ (adBody P s).evalTimes = s.evalTimes) := by
  by_cases h : adErrNorm P s ≤ 1
  · refine ⟨⟨fun _ => h, fun _ => Or.inl ?_⟩, fun _ => ?_, fun hc => absurd h hc⟩
    · simpa [adBody, h] using hdt
    · refine ⟨?_, ?_, ?_⟩ <;> simp [adBody, h]
  · refine ⟨⟨fun hor => ?_, fun hle => absurd hle h⟩, fun hle => absurd hle h,
      fun _ => ?_⟩
    · rcases hor with ht | hs'
      · exact absurd (by simp [adBody, h]) ht
      · exact absurd (by simp [adBody, h]) hs'
    · refine ⟨?_, ?_, ?_, ?_⟩ <;> simp [adBody, h]

/-- Witness for C4_accept_iff_hairer_norm: a unit trial step with zero
error is accepted and commits. -/
theorem C4_accept_iff_witness :
    (c4S.t + adDtTrial c4P c4S ≠ c4S.t ∧ adErrNorm c4P c4S ≤ 1) ∧
      ((adBody c4P c4S).t ≠ c4S.t ∨ (adBody c4P c4S).sol ≠ c4S.sol) := by
  have hnofire : ¬ adCkptFires c4P c4S := by
    intro hf
    have h2 := hf.2.1
    rw [dtClamped] at h2
    norm_num [c4P, c4S] at h2
  have hdtv : adDtTrial c4P c4S = 1 := by
    rw [adDtTrial, if_neg hnofire, dtClamped]
    norm_num [c4P, c4S]
  have hdt : c4S.t + adDtTrial c4P c4S ≠ c4S.t := by
    rw [hdtv]
    norm_num [c4S]
  have hout : adStepOut c4P c4S = ⟨[0], [0], [0], []⟩ := rfl
  have hscaled : adScaled c4P c4S = [0] := by
    rw [adScaled, hout]
    norm_num [scaledError, scaleFactorVec, tmax, tabs, tdiv, c4P, c4S]
  have hn : adErrNorm c4P c4S ≤ 1 := by
    unfold adErrNorm
    rw [hscaled, hairer_norm_singleton]
    norm_num
  exact ⟨⟨hdt, hn⟩, ((C4_accept_iff_hairer_norm c4P c4S hdt).1).mpr hn⟩

/-- Claim C5 (counterexample).  The claim states that a rejected trial
is retried with `dt_new = dt * factor`, `dt` the trial step.  In a
checkpoint-shrunk iteration the driver first restores `dt = dt_old -
dt` and adapts that remainder: here the trial of size 1 (shrunk from
3/2) is rejected with error 2, and the next `dt` is `(3/2 - 1) * 0.45
= 9/40`, not `1 * 0.45 = 9/20`. -/
theorem C5_reject_ckpt_dt_counterexample :
    1 < adErrNorm c5P c5S ∧
      (adBody c5P c5S).t = c5S.t ∧ (adBody c5P c5S).x = c5S.x ∧
      (adBody c5P c5S).sol = c5S.sol ∧
      (adBody c5P c5S).dt ≠
        adapt_step (adDtTrial c5P c5S) (adErrNorm c5P c5S)
          (9 / 10) (1 / 5) 10 1 := by
  have hclamp : dtClamped c5P c5S = 3 / 2 := by
    rw [dtClamped]
    norm_num [c5P, c5S]
  have hfires : adCkptFires c5P c5S := by
    refine ⟨by norm_num [c5P, c5S], ?_, rfl⟩
    rw [hclamp]
    norm_num [c5P, c5S]
  have hdtT : adDtTrial c5P c5S = 1 := by
    rw [adDtTrial, if_pos hfires]
    norm_num [c5P, c5S]
  have hout : adStepOut c5P c5S = ⟨[0], [0], [2], []⟩ := by
    rw [adStepOut, hdtT]
    norm_num [c5P, c5S]
  have hscaled : adScaled c5P c5S = [2] := by
    rw [adScaled, hout]
    norm_num [scaledError, scaleFactorVec, tmax, tabs, tdiv, c5P, c5S]
  have hnorm : adErrNorm c5P c5S = 2 := by
    unfold adErrNorm
    rw [hscaled, hairer_norm_singleton]
    norm_num
  have hrej : ¬ adErrNorm c5P c5S ≤ 1 := by rw [hnorm]; norm_num
  have hrest : adDtRestored c5P c5S = 1 / 2 := by
    have hflag : adFlagMid c5P c5S = true := by
      rw [adFlagMid, if_pos hfires]
    rw [adDtRestored, hflag, if_pos rfl, adDtOldMid, if_pos hfires, hclamp, hdtT]
    norm_num
  have hbodydt : (adBody c5P c5S).dt = 9 / 40 := by
    have hb : (adBody c5P c5S).dt = adDtNext c5P c5S := by simp [adBody, hrej]
    rw [hb, adDtNext, hrest, hnorm,
      show c5P.safety = 9 / 10 from rfl, show c5P.minFactor = 1 / 5 from rfl,
      show c5P.maxFactor = 10 from rfl, show c5P.order = 1 from rfl,
      adapt_step_order_one]
    norm_num
  refine ⟨by rw [hnorm]; norm_num, by simp [adBody, hrej], by simp [adBody, hrej],
    by simp [adBody, hrej], ?_⟩
  rw [hbodydt, hdtT, hnorm, adapt_step_order_one]
  norm_num

/-- Claim C5 (amended).  On rejection (`error_ratio > 1`) the
accumulators and the current `(t, x)` are unchanged and the step is
retried with `dt_new = adapt_step(dt', r)` where `dt'` is the trial
step size except in checkpoint-shrunk iterations, where it is the
restored remainder `dt_old - dt`; on acceptance `t` advances and the
same `dt_new` is adopted.  (`adapt_step` is the spec's `factor =
safety * r^(-1/order)` clamped to `[min_factor, max_factor]`; the
driver passes the solver constants, whose source defaults are 0.9, 0.2
and 10.) -/
theorem C5_reject_retry_amended (P : AdParams) (s : AdState) :
    (1 < adErrNorm P s →
      (adBody P s).sol = s.sol ∧ (adBody P s).evalTimes = s.evalTimes ∧
        (adBody P s).t = s.t ∧ (adBody P s).x = s.x ∧
        (adBody P s).dt =
          adapt_step (adDtRestored P s) (adErrNorm P s) P.safety P.minFactor
            P.maxFactor P.order) ∧
      (adErrNorm P s ≤ 1 →
        (adBody P s).t = s.t + adDtTrial P s ∧
          (adBody P s).dt =
            adapt_step (adDtRestored P s) (adErrNorm P s) P.safety P.minFactor
              P.maxFactor P.order) ∧
      (adCkptFires P s → adDtRestored P s = dtClamped P s - adDtTrial P s) ∧
      (¬ adCkptFires P s → s.ckptFlag = false →
        adDtRestored P s = adDtTrial P s) := by
  refine ⟨fun h1 => ?_, fun h2 => ?_, fun hf => ?_, fun hnf hflag => ?_⟩
  · have h : ¬ adErrNorm P s ≤ 1 := not_le.mpr h1
    refine ⟨?_, ?_, ?_, ?_, ?_⟩ <;> simp [adBody, h, adDtNext]
  · refine ⟨?_, ?_⟩ <;> simp [adBody, h2, adDtNext]
  · simp [adDtRestored, adFlagMid, hf, adDtOldMid]
  · simp [adDtRestored, adFlagMid, hnf, hflag]

/-- Witness for C5_reject_retry_amended: a plain rejected trial of size
1/2 with error 3 keeps the state and adapts the restored step size. -/
theorem C5_reject_retry_witness :
    1 < adErrNorm c5Pb c5Sb ∧
      ((adBody c5Pb c5Sb).sol = c5Sb.sol ∧
        (adBody c5Pb c5Sb).evalTimes = c5Sb.evalTimes ∧
        (adBody c5Pb c5Sb).t = c5Sb.t ∧ (adBody c5Pb c5Sb).x = c5Sb.x ∧
        (adBody c5Pb c5Sb).dt =
          adapt_step (adDtRestored c5Pb c5Sb) (adErrNorm c5Pb c5Sb)
            c5Pb.safety c5Pb.minFactor c5Pb.maxFactor c5Pb.order) := by
  have hnf : ¬ adCkptFires c5Pb c5Sb := by
    intro hf
    have h2 := hf.2.1
    rw [dtClamped] at h2
    norm_num [c5Pb, c5Sb] at h2
  have hdtT : adDtTrial c5Pb c5Sb = 1 / 2 := by
    rw [adDtTrial, if_neg hnf, dtClamped]
    norm_num [c5Pb, c5Sb]
  have hout : adStepOut c5Pb c5Sb = ⟨[0], [0], [3], []⟩ := by
    rw [adStepOut, hdtT]
    norm_num [c5Pb, c5Sb]
  have hscaled : adScaled c5Pb c5Sb = [3] := by
    rw [adScaled, hout]
    norm_num [scaledError, scaleFactorVec, tmax, tabs, tdiv, c5Pb, c5Sb]
  have hnorm : adErrNorm c5Pb c5Sb = 3 := by
    unfold adErrNorm
    rw [hscaled, hairer_norm_singleton]
    norm_num
  have h3 : 1 < adErrNorm c5Pb c5Sb := by rw [hnorm]; norm_num
  exact ⟨h3, (C5_reject_retry_amended c5Pb c5Sb).1 h3⟩

/-- Claim C7 (counterexample).  The claim states that with `seminorm =
(True, d)` only the leading `d` components of the *state dimension*
(the last axis) contribute to the error norm.  The code slices the
*first* axis: on a batched state of shape `[2, 2]` with `d = 1`, two
error tensors that agree on the leading 1 component of the state
dimension in every batch row (all first components are 0) produce
different acceptance decisions, because the entry at batch row 0,
state component 1 survives the slice `x_err[:1]`. -/
theorem C7_seminorm_batch_axis_counterexample :
    c7errA.map (List.take 1) = c7errB.map (List.take 1) ∧
      ¬ hairer_norm2 (scaledError2 1 0 true 1 c7x c7x c7errA) ≤ 1 ∧
      hairer_norm2 (scaledError2 1 0 true 1 c7x c7x c7errB) ≤ 1 := by
  have hA : scaledError2 1 0 true 1 c7x c7x c7errA = [[0, 2]] := by
    norm_num [scaledError2, scaleFactorVec, tmax, tabs, tdiv, c7x, c7errA]
  have hB : scaledError2 1 0 true 1 c7x c7x c7errB = [[0, 0]] := by
    norm_num [scaledError2, scaleFactorVec, tmax, tabs, tdiv, c7x, c7errB]
  refine ⟨by norm_num [c7errA, c7errB], ?_, ?_⟩
  · rw [hairer_norm2, hA]
    have hm : meanSq ([[0, 2]] : List Tensor).flatten = 2 := by
      norm_num [meanSq]
    rw [hm]
    intro hle
    have h1 : (1 : ℝ) < Real.sqrt 2 := by
      have := Real.sqrt_lt_sqrt (by norm_num : (0:ℝ) ≤ 1) (by norm_num : (1:ℝ) < 2)
      simpa using this
    linarith
  · rw [hairer_norm2, hB]
    have hm : meanSq ([[0, 0]] : List Tensor).flatten = 0 := by
      norm_num [meanSq]
    rw [hm]
    simp

/-- Claim C7 (amended).  The seminorm slice acts along the first axis
of the tensors; for an unbatched one-dimensional state this is the
leading `d` state components, and then the remaining components of
`x`, `x_new` and `x_err` have no effect on the scaled error, hence
none on the norm, acceptance, or step-size adaptation. -/
theorem C7_seminorm_unbatched_amended (atol rtol : ℝ) (d : ℕ)
    (x xNew xErr x' xNew' xErr' : Tensor)
    (hx : x.take d = x'.take d) (hn : xNew.take d = xNew'.take d)
    (he : xErr.take d = xErr'.take d) :
    scaledError atol rtol true d x xNew xErr =
        scaledError atol rtol true d x' xNew' xErr' ∧
      hairer_norm (scaledError atol rtol true d x xNew xErr) =
        hairer_norm (scaledError atol rtol true d x' xNew' xErr') := by
  have h1 : scaledError atol rtol true d x xNew xErr =
      scaledError atol rtol true d x' xNew' xErr' := by
    simp [scaledError, hx, hn, he]
  exact ⟨h1, by rw [h1]⟩

/-- Witness for C7_seminorm_unbatched_amended: two unbatched states
agreeing on their leading component give the same scaled error. -/
theorem C7_seminorm_witness :
    (([0, 1] : Tensor).take 1 = ([0, 9] : Tensor).take 1 ∧
        ([0, 2] : Tensor).take 1 = ([0, 8] : Tensor).take 1 ∧
        ([0, 5] : Tensor).take 1 = ([0, 7] : Tensor).take 1) ∧
      scaledError 1 0 true 1 [0, 1] [0, 2] [0, 5] =
        scaledError 1 0 true 1 [0, 9] [0, 8] [0, 7] := by
  have hx : ([0, 1] : Tensor).take 1 = ([0, 9] : Tensor).take 1 := by norm_num
  have hn : ([0, 2] : Tensor).take 1 = ([0, 8] : Tensor).take 1 := by norm_num
  have he : ([0, 5] : Tensor).take 1 = ([0, 7] : Tensor).take 1 := by norm_num
  exact ⟨⟨hx, hn, he⟩,
    (C7_seminorm_unbatched_amended 1 0 1 [0, 1] [0, 2] [0, 5] [0, 9] [0, 8] [0, 7]
      hx hn he).1⟩

/-- Index lemma: an element of a `pararealRound` result, by region. -/
theorem pararealRound_getD (coarse fine : Tensor → Tensor) (nSub i m : ℕ)
    (B : List Tensor) (h2 : m < B.length) :
    (pararealRound coarse fine nSub i B).getD m [] =
      if m < i then B.getD m []
      else if m < nSub then
        binSeq coarse ((B.drop (i - 1)).map coarse) ((B.drop (i - 1)).map fine)
          (B.getD (i - 1) []) (m - i + 1)
      else tzero (B.getD m []) := by
  unfold pararealRound
  rw [List.getD_eq_getElem?_getD, List.getElem?_map, List.getElem?_range h2]
  simp

/-- Index lemma: mapping a propagator over a dropped tail. -/
theorem getD_map_drop (g : Tensor → Tensor) (B : List Tensor) (k j : ℕ)
    (h : k + j < B.length) :
    ((B.drop k).map g).getD j [] = g (B.getD (k + j) []) := by
  rw [List.getD_eq_getElem?_getD, List.getElem?_map, List.getElem?_drop,
    List.getD_eq_getElem?_getD, List.getElem?_eq_getElem h]
  simp

/-- The `while i <= maxiter` loop of `root_solve` unrolls into one
round per counter value. -/
theorem rootSolveGo_eq_foldl (round : ℕ → List Tensor → List Tensor) :
    ∀ (n i : ℕ) (B : List Tensor),
      rootSolveGo round n i B =
        (List.range' (i + 1) n).foldl (fun acc j => round j acc) B := by
  intro n
  induction n with
  | zero => intro i B; rfl
  | succ n ih =>
    intro i B
    show rootSolveGo round n (i + 1) (round (i + 1) B) = _
    rw [ih (i + 1) (round (i + 1) B)]
    rfl

/-- Claim C8 (counterexample).  The claim states `root_solve` performs
exactly `maxiter` rounds.  With `maxiter = 1`, coarse propagator
`b + 1`, fine propagator `3 * b` and four boundaries at `[1]`, one
round gives `[[1], [3], [5], [0]]` but the code returns the two-round
result `[[1], [3], [9], [0]]`. -/
theorem C8_maxiter_rounds_counterexample :
    msZeroRootSolve c8coarse c8fine 4 1 c8B = [[1], [3], [9], [0]] ∧
      pararealRound c8coarse c8fine 3 1 c8B = [[1], [3], [5], [0]] ∧
      ([[1], [3], [9], [0]] : List Tensor) ≠ [[1], [3], [5], [0]] := by
  have h1 : pararealRound c8coarse c8fine 3 1 c8B = [[1], [3], [5], [0]] := by
    norm_num [pararealRound, binSeq, c8coarse, c8fine, c8B, tadd, tsub, tzero,
      List.range_succ]
  have h0 : msZeroRootSolve c8coarse c8fine 4 1 c8B =
      pararealRound c8coarse c8fine 3 2 (pararealRound c8coarse c8fine 3 1 c8B) :=
    rfl
  have h2 : pararealRound c8coarse c8fine 3 2 ([[1], [3], [5], [0]] : List Tensor) =
      [[1], [3], [9], [0]] := by
    norm_num [pararealRound, binSeq, c8coarse, c8fine, tadd, tsub, tzero,
      List.range_succ]
  refine ⟨by rw [h0, h1, h2], h1, ?_⟩
  intro h
  have := congrArg (fun l => List.getD l 2 ([] : Tensor)) h
  norm_num [List.getD] at this

/-- Claim C8 (amended).  `MSZero.root_solve` performs `maxiter + 1`
rounds, with loop indices `i = 1 .. maxiter + 1`; round `i` keeps
entries below `i` (the converged prefix `B[0..i-1]`), updates entries
`i <= m < N` (`N = len(t_span) - 1`) through
`B_in <- coarse(B_in) - coarse(B[m-1]) + fine(B[m-1])`, and resets the
entries from `N` on (in particular the terminal boundary) to zeros;
`odeint_mshooting` returns the pair `(t_span, B)`. -/
theorem C8_parareal_rounds_amended :
    (∀ (coarse fine : Tensor → Tensor) (L maxiter : ℕ) (B : List Tensor),
      msZeroRootSolve coarse fine L maxiter B =
        (List.range' 1 (maxiter + 1)).foldl
          (fun acc j => pararealRound coarse fine (L - 1) j acc) B) ∧
      (∀ (coarse fine : Tensor → Tensor) (nSub i m : ℕ) (B : List Tensor),
        m < i → m < B.length →
        (pararealRound coarse fine nSub i B).getD m [] = B.getD m []) ∧
      (∀ (coarse fine : Tensor → Tensor) (nSub i m : ℕ) (B : List Tensor),
        i ≤ m → nSub ≤ m → m < B.length →
        (pararealRound coarse fine nSub i B).getD m [] = tzero (B.getD m [])) ∧
      (∀ (coarse fine : Tensor → Tensor) (nSub i m : ℕ) (B : List Tensor),
        1 ≤ i → i ≤ m → m < nSub → m < B.length →
        (pararealRound coarse fine nSub i B).getD m [] =
          tadd (tsub
              (coarse (if m = i then B.getD (i - 1) []
                else (pararealRound coarse fine nSub i B).getD (m - 1) []))
              (coarse (B.getD (m - 1) [])))
            (fine (B.getD (m - 1) []))) ∧
      (∀ (coarse fine : Tensor → Tensor) (ts : List ℝ) (B0 : List Tensor)
          (maxiter : ℕ),
        odeintMShooting coarse fine ts B0 maxiter =
          (ts, msZeroRootSolve coarse fine ts.length maxiter B0)) := by
  refine ⟨?_, ?_, ?_, ?_, ?_⟩
  · intro coarse fine L maxiter B
    exact rootSolveGo_eq_foldl _ (maxiter + 1) 0 B
  · intro coarse fine nSub i m B h1 h2
    rw [pararealRound_getD coarse fine nSub i m B h2, if_pos h1]
  · intro coarse fine nSub i m B h1 hn h2
    rw [pararealRound_getD coarse fine nSub i m B h2, if_neg (by omega),
      if_neg (by omega)]
  · intro coarse fine nSub i m B hi1 hi hm h2
    have hmain : (pararealRound coarse fine nSub i B).getD m [] =
        binSeq coarse ((B.drop (i - 1)).map coarse) ((B.drop (i - 1)).map fine)
          (B.getD (i - 1) []) (m - i + 1) := by
      rw [pararealRound_getD coarse fine nSub i m B h2, if_neg (by omega),
        if_pos hm]
    have hstep : binSeq coarse ((B.drop (i - 1)).map coarse)
        ((B.drop (i - 1)).map fine) (B.getD (i - 1) []) (m - i + 1) =
        tadd (tsub
            (coarse (binSeq coarse ((B.drop (i - 1)).map coarse)
              ((B.drop (i - 1)).map fine) (B.getD (i - 1) []) (m - i)))
            (((B.drop (i - 1)).map coarse).getD (m - i) []))
          (((B.drop (i - 1)).map fine).getD (m - i) []) := rfl
    have hc : ((B.drop (i - 1)).map coarse).getD (m - i) [] =
        coarse (B.getD (m - 1) []) := by
      have := getD_map_drop coarse B (i - 1) (m - i) (by omega)
      rwa [show i - 1 + (m - i) = m - 1 by omega] at this
    have hf : ((B.drop (i - 1)).map fine).getD (m - i) [] =
        fine (B.getD (m - 1) []) := by
      have := getD_map_drop fine B (i - 1) (m - i) (by omega)
      rwa [show i - 1 + (m - i) = m - 1 by omega] at this
    have hprev : binSeq coarse ((B.drop (i - 1)).map coarse)
        ((B.drop (i - 1)).map fine) (B.getD (i - 1) []) (m - i) =
        (if m = i then B.getD (i - 1) []
          else (pararealRound coarse fine nSub i B).getD (m - 1) []) := by
      by_cases hmi : m = i
      · subst hmi
        rw [if_pos rfl, Nat.sub_self]
        rfl
      · rw [if_neg hmi]
        have hm1 : (pararealRound coarse fine nSub i B).getD (m - 1) [] =
            binSeq coarse ((B.drop (i - 1)).map coarse)
              ((B.drop (i - 1)).map fine) (B.getD (i - 1) []) (m - 1 - i + 1) := by
          rw [pararealRound_getD coarse fine nSub i (m - 1) B (by omega),
            if_neg (by omega), if_pos (by omega)]
        rw [hm1, show m - 1 - i + 1 = m - i by omega]
    rw [hmain, hstep, hc, hf, hprev]
  · intro coarse fine ts B0 maxiter
    rfl

/-- Witness for C8_parareal_rounds_amended at the concrete Parareal
instance: the frozen entry 0, the zeroed terminal entry 3, and the
update formula at entry 1 of round 1. -/
theorem C8_parareal_witness :
    ((0 : ℕ) < 1 ∧ (0 : ℕ) < c8B.length ∧ (1 : ℕ) ≤ 3 ∧ (3 : ℕ) ≤ 3 ∧
        3 < c8B.length ∧ (1 : ℕ) ≤ 1 ∧ (1 : ℕ) ≤ 1 ∧ (1 : ℕ) < 3) ∧
      (pararealRound c8coarse c8fine 3 1 c8B).getD 0 [] = c8B.getD 0 [] ∧
      (pararealRound c8coarse c8fine 3 1 c8B).getD 3 [] =
        tzero (c8B.getD 3 []) ∧
      (pararealRound c8coarse c8fine 3 1 c8B).getD 1 [] =
        tadd (tsub
            (c8coarse (if 1 = 1 then c8B.getD 0 []
              else (pararealRound c8coarse c8fine 3 1 c8B).getD 0 []))
            (c8coarse (c8B.getD 0 [])))
          (c8fine (c8B.getD 0 [])) := by
  have hlen : c8B.length = 4 := by norm_num [c8B]
  refine ⟨⟨by norm_num, by omega, by norm_num, by norm_num, by omega,
      le_refl 1, le_refl 1, by norm_num⟩, ?_, ?_, ?_⟩
  · exact C8_parareal_rounds_amended.2.1 c8coarse c8fine 3 1 0 c8B
      (by norm_num) (by omega)
  · exact C8_parareal_rounds_amended.2.2.1 c8coarse c8fine 3 1 3 c8B
      (by norm_num) (by norm_num) (by omega)
  · exact C8_parareal_rounds_amended.2.2.2.1 c8coarse c8fine 3 1 1 c8B
      (by norm_num) (by norm_num) (by norm_num) (by omega)

/-- Each bisection iteration increments `niters` by exactly 1. -/
theorem bisBody_niters (P : HybParams) (dtReset : ℝ) (evs : List Bool)
    (b : BisState) : (bisBody P dtReset evs b).niters = b.niters + 1 := by
  unfold bisBody
  dsimp only
  split <;> rfl

/-- The bisection loop runs at most `fuel` iterations. -/
theorem bisect_niters_le (P : HybParams) (dtReset : ℝ) (evs : List Bool) :
    ∀ (fuel : ℕ) (b : BisState),
      (bisect P dtReset evs fuel b).niters ≤ b.niters + fuel := by
  intro fuel
  induction fuel with
  | zero => intro b; exact le_refl _
  | succ n ih =>
    intro b
    show (bisect P dtReset evs (n + 1) b).niters ≤ _
    rw [bisect]
    split
    · calc (bisect P dtReset evs n (bisBody P dtReset evs b)).niters
          ≤ (bisBody P dtReset evs b).niters + n := ih _
      _ = b.niters + (n + 1) := by rw [bisBody_niters]; omega
    · omega

/-- When the fuel covers the `max_iters` budget, the loop returns only
because its own guard fails: at the result either 100 iterations were
spent or `dt_inner` dropped to `event_tol`. -/
theorem bisect_exit (P : HybParams) (dtReset : ℝ) (evs : List Bool) :
    ∀ (fuel : ℕ) (b : BisState), 100 ≤ b.niters + fuel →
      ¬ ((bisect P dtReset evs fuel b).niters < 100 ∧
        P.eventTol < (bisect P dtReset evs fuel b).dtInner) := by
  intro fuel
  induction fuel with
  | zero =>
    intro b hb
    intro ⟨h1, _⟩
    simp only [bisect] at h1
    omega
  | succ n ih =>
    intro b hb
    show ¬ ((bisect P dtReset evs (n + 1) b).niters < 100 ∧ _)
    rw [bisect]
    split
    · exact ih (bisBody P dtReset evs b) (by rw [bisBody_niters]; omega)
    · assumption

/-- Claim C9 (counterexample).  The claim states that exhausting the
100 bisection iterations is not propagated as an error.  Here the
outer trial triggers the callback, but every inner trial lands on a
state with no rising edge, so all 100 iterations advance; the final
event check `[false]` has no `True` entry and the driver's
`min([i ...])` selection raises (the body yields an exception, not a
continuing state). -/
theorem C9_bisection_empty_event_crash :
    0 < hybTrig c9P c9S ∧ hybBody c9P c9S = none := by
  have hnofire : ¬ hybCkptFires c9P c9S := by
    intro hf
    have h2 := hf.2
    rw [hybDtClamped] at h2
    norm_num [c9P, c9S] at h2
  have hdtT : hybDtTrial c9P c9S = 1 := by
    rw [hybDtTrial, if_neg hnofire, hybDtClamped]
    norm_num [c9P, c9S]
  have hout : hybStepOut c9P c9S = ⟨[0], [1, 1], [0], []⟩ := by
    rw [hybStepOut, hdtT]
    norm_num [c9P, c9S]
  have hnew : hybNewEv c9P c9S = [true] := by
    rw [hybNewEv, hout]
    norm_num [c9P, c9S, c9cb]
  have htrig : 0 < hybTrig c9P c9S := by
    rw [hybTrig, hnew]
    norm_num [countRising, c9S]
  have hinit : bisInit c9P c9S = c9St 0 := by
    rw [bisInit, hdtT, hnew]
    norm_num [c9St, c9S]
  have hbody : ∀ k, bisBody c9P 1 [false] (c9St k) = c9St (k + 1) := by
    intro k
    have hstep : c9P.stepF (c9St k).tInner (c9St k).xInner ((c9St k).dtInner / 2)
        (c9St k).k1 = ⟨[0], [0], [0], []⟩ := by
      norm_num [c9P, c9St]
    unfold bisBody
    dsimp only
    rw [hstep]
    norm_num [c9P, c9cb, countRising, c9St]
    ring
  have hloop : ∀ (n k : ℕ), k + n = 100 →
      bisect c9P 1 [false] n (c9St k) = c9St 100 := by
    intro n
    induction n with
    | zero =>
      intro k hk
      have : k = 100 := by omega
      subst this
      rfl
    | succ n ih =>
      intro k hk
      show bisect c9P 1 [false] (n + 1) (c9St k) = _
      rw [bisect]
      rw [if_pos ⟨by simp [c9St]; omega, by norm_num [c9St, c9P]⟩]
      rw [hbody k]
      exact ih (k + 1) (by omega)
  have hres : bisResult c9P c9S = c9St 100 := by
    rw [bisResult, hdtT, hinit, show c9S.eventStates = [false] from rfl]
    exact hloop 100 0 rfl
  refine ⟨htrig, ?_⟩
  unfold hybBody
  rw [if_pos htrig, hres]
  rfl

/-- Claim C9 (amended).  The event-bisection inner loop always
terminates: it spends at most 100 iterations and returns only when
`dt_inner <= event_tol` or the iteration budget is exhausted, which is
not signalled as an error; when the final inner event check still
records a rising edge, the driver accepts the best available bracket
`(t_inner, x_inner)`, appends the pre- and post-jump samples and
continues.  (When that final check has no rising edge - see the
counterexample - the selection of the triggered callback fails
instead.) -/
theorem C9_bisection_terminates_amended (P : HybParams) (s : HybState)
    (htrig : 0 < hybTrig P s) :
    (bisResult P s).niters ≤ 100 ∧
      ¬ ((bisResult P s).niters < 100 ∧
        P.eventTol < (bisResult P s).dtInner) ∧
      (∀ (i : ℕ) (cb : Callback),
        (bisResult P s).newEv.findIdx? (fun b => b = true) = some i →
        P.callbacks.get? i = some cb →
        hybBody P s = some
          { t := (bisResult P s).tInner,
            x := cb.jumpMap (bisResult P s).tInner (bisResult P s).xInner,
            dt := hybDtTrial P s, k1 := none,
            ckptCounter := hybCkptAfter P s, ckptFlag := hybFlagMid P s,
            dtOld := hybDtOldMid P s, jnum := s.jnum,
            eventStates := s.eventStates,
            sol := s.sol ++ [(bisResult P s).xInner,
              cb.jumpMap (bisResult P s).tInner (bisResult P s).xInner],
            evalTimes := s.evalTimes ++ [(bisResult P s).tInner,
              (bisResult P s).tInner] }) := by
  refine ⟨?_, ?_, ?_⟩
  · have := bisect_niters_le P (hybDtTrial P s) s.eventStates 100 (bisInit P s)
    simpa [bisResult, bisInit] using this
  · exact bisect_exit P (hybDtTrial P s) s.eventStates 100 (bisInit P s)
      (by simp [bisInit])
  · intro i cb hidx hcb
    unfold hybBody
    rw [if_pos htrig]
    simp only [hidx, hcb]

/-- Witness for C9_bisection_terminates_amended: the triggering trial
whose bisection stops immediately (`dt_inner <= event_tol`), with the
rising edge still recorded; the driver appends the bracket and the
jumped state. -/
theorem C9_bisection_witness :
    (0 < hybTrig c9Pb c9Sb ∧
        (bisResult c9Pb c9Sb).newEv.findIdx? (fun b => b = true) = some 0 ∧
        c9Pb.callbacks.get? 0 = some c9cb) ∧
      ((bisResult c9Pb c9Sb).niters ≤ 100 ∧
        ¬ ((bisResult c9Pb c9Sb).niters < 100 ∧
          c9Pb.eventTol < (bisResult c9Pb c9Sb).dtInner) ∧
        hybBody c9Pb c9Sb = some
          { t := (bisResult c9Pb c9Sb).tInner,
            x := c9cb.jumpMap (bisResult c9Pb c9Sb).tInner
              (bisResult c9Pb c9Sb).xInner,
            dt := hybDtTrial c9Pb c9Sb, k1 := none,
            ckptCounter := hybCkptAfter c9Pb c9Sb,
            ckptFlag := hybFlagMid c9Pb c9Sb,
            dtOld := hybDtOldMid c9Pb c9Sb, jnum := c9Sb.jnum,
            eventStates := c9Sb.eventStates,
            sol := c9Sb.sol ++ [(bisResult c9Pb c9Sb).xInner,
              c9cb.jumpMap (bisResult c9Pb c9Sb).tInner
                (bisResult c9Pb c9Sb).xInner],
            evalTimes := c9Sb.evalTimes ++ [(bisResult c9Pb c9Sb).tInner,
              (bisResult c9Pb c9Sb).tInner] }) := by
  have hnofire : ¬ hybCkptFires c9Pb c9Sb := by
    intro hf
    have h2 := hf.2
    rw [hybDtClamped] at h2
    norm_num [c9Pb, c9Sb] at h2
  have hdtT : hybDtTrial c9Pb c9Sb = 1 := by
    rw [hybDtTrial, if_neg hnofire, hybDtClamped]
    norm_num [c9Pb, c9Sb]
  have hout : hybStepOut c9Pb c9Sb = ⟨[0], [5, 5], [0], []⟩ := rfl
  have hnew : hybNewEv c9Pb c9Sb = [true] := by
    rw [hybNewEv, hout]
    norm_num [c9Pb, c9Sb, c9cb]
  have htrig : 0 < hybTrig c9Pb c9Sb := by
    rw [hybTrig, hnew]
    norm_num [countRising, c9Sb]
  have hres : bisResult c9Pb c9Sb = bisInit c9Pb c9Sb := by
    rw [bisResult]
    show bisect _ _ _ (99 + 1) _ = _
    rw [bisect]
    rw [if_neg ?_]
    intro ⟨_, h2⟩
    rw [bisInit, hdtT] at h2
    norm_num [c9Pb] at h2
  have hidx : (bisResult c9Pb c9Sb).newEv.findIdx? (fun b => b = true)
      = some 0 := by
    rw [hres, bisInit, hnew]
    rfl
  have hcb : c9Pb.callbacks.get? 0 = some c9cb := rfl
  exact ⟨⟨htrig, hidx, hcb⟩,
    (C9_bisection_terminates_amended c9Pb c9Sb htrig).1,
    (C9_bisection_terminates_amended c9Pb c9Sb htrig).2.1,
    (C9_bisection_terminates_amended c9Pb c9Sb htrig).2.2 0 c9cb hidx hcb⟩

/-- First iteration of the C10 run: the step is shrunk to land on the
requested time 1 (counter incremented to 1 before the trial is
judged), then rejected by error control; `dt` is restored to the
remainder 1/2 and adapted to 9/40. -/
theorem c10_step1 : hybBody c10P c10S = some c10S1 := by
  have hclamp : hybDtClamped c10P c10S = 3 / 2 := by
    rw [hybDtClamped]
    norm_num [c10P, c10S]
  have hfires : hybCkptFires c10P c10S := by
    refine ⟨by norm_num [c10P, c10S], ?_⟩
    rw [hclamp]
    norm_num [c10P, c10S]
  have hdtT : hybDtTrial c10P c10S = 1 := by
    rw [hybDtTrial, if_pos hfires]
    norm_num [c10P, c10S]
  have hout : hybStepOut c10P c10S = ⟨[0], [0], [2], []⟩ := by
    rw [hybStepOut, hdtT]
    norm_num [c10P, c10S]
  have htrig0 : hybTrig c10P c10S = 0 := rfl
  have hscaled : hybScaled c10P c10S = [2] := by
    rw [hybScaled, hout]
    norm_num [scaledError, scaleFactorVec, tmax, tabs, tdiv, c10P, c10S]
  have hnorm : hybErrNorm c10P c10S = 2 := by
    rw [hybErrNorm, hscaled, hairer_norm_singleton]
    norm_num
  have hrej : ¬ hybErrNorm c10P c10S ≤ 1 := by rw [hnorm]; norm_num
  have hckpta : hybCkptAfter c10P c10S = 1 := by
    rw [hybCkptAfter, if_pos hfires]
    norm_num [c10S]
  have holdmid : hybDtOldMid c10P c10S = 3 / 2 := by
    rw [hybDtOldMid, if_pos hfires, hclamp]
  have hrest : hybDtRestored c10P c10S = 1 / 2 := by
    have hflag : hybFlagMid c10P c10S = true := by
      rw [hybFlagMid, if_pos hfires]
    rw [hybDtRestored, hflag, if_pos rfl, holdmid, hdtT]
    norm_num
  have hdtnext : hybDtNext c10P c10S = 9 / 40 := by
    rw [hybDtNext, hrest, hnorm,
      show c10P.safety = 9 / 10 from rfl, show c10P.minFactor = 1 / 5 from rfl,
      show c10P.maxFactor = 10 from rfl, show c10P.order = 1 from rfl,
      adapt_step_order_one]
    norm_num
  unfold hybBody
  dsimp only
  rw [if_neg (by rw [htrig0]; omega), if_neg hrej, hdtnext, hckpta, holdmid]
  norm_num [c10S, c10S1]

/-- Second iteration of the C10 run: a plain accepted step of size
9/40 with small error; `dt` grows by the clamped factor 10. -/
theorem c10_step2 : hybBody c10P c10S1 = some c10S2 := by
  have hclamp : hybDtClamped c10P c10S1 = 9 / 40 := by
    rw [hybDtClamped]
    norm_num [c10P, c10S1]
  have hnofire : ¬ hybCkptFires c10P c10S1 := by
    intro hf
    have h2 := hf.2
    rw [hclamp] at h2
    norm_num [c10P, c10S1] at h2
  have hdtT : hybDtTrial c10P c10S1 = 9 / 40 := by
    rw [hybDtTrial, if_neg hnofire, hclamp]
  have hout : hybStepOut c10P c10S1 = ⟨[0], [0], [9 / 100], []⟩ := by
    rw [hybStepOut, hdtT]
    norm_num [c10P, c10S1]
  have htrig0 : hybTrig c10P c10S1 = 0 := rfl
  have hscaled : hybScaled c10P c10S1 = [9 / 100] := by
    rw [hybScaled, hout]
    norm_num [scaledError, scaleFactorVec, tmax, tabs, tdiv, c10P, c10S1]
  have hnorm : hybErrNorm c10P c10S1 = 9 / 100 := by
    rw [hybErrNorm, hscaled, hairer_norm_singleton]
    norm_num
  have hacc : hybErrNorm c10P c10S1 ≤ 1 := by rw [hnorm]; norm_num
  have hckpta : hybCkptAfter c10P c10S1 = 1 := by
    rw [hybCkptAfter, if_neg hnofire]
    rfl
  have holdmid : hybDtOldMid c10P c10S1 = 3 / 2 := by
    rw [hybDtOldMid, if_neg hnofire]
    rfl
  have hrest : hybDtRestored c10P c10S1 = 9 / 40 := by
    have hflag : hybFlagMid c10P c10S1 = false := by
      rw [hybFlagMid, if_neg hnofire]
      rfl
    rw [hybDtRestored, hflag]
    simp [hdtT]
  have hdtnext : hybDtNext c10P c10S1 = 9 / 4 := by
    rw [hybDtNext, hrest, hnorm,
      show c10P.safety = 9 / 10 from rfl, show c10P.minFactor = 1 / 5 from rfl,
      show c10P.maxFactor = 10 from rfl, show c10P.order = 1 from rfl,
      adapt_step_order_one]
    norm_num
  unfold hybBody
  dsimp only
  rw [if_neg (by rw [htrig0]; omega), if_pos hacc, hout, hdtT, hdtnext, hckpta,
    holdmid]
  norm_num [c10S1, c10S2]

/-- Third iteration of the C10 run: the step is clamped to the
terminal time 2 and accepted; the run ends at `t = 2`. -/
theorem c10_step3 : hybBody c10P c10S2 = some c10S3 := by
  have hclamp : hybDtClamped c10P c10S2 = 71 / 40 := by
    rw [hybDtClamped]
    norm_num [c10P, c10S2]
  have hnofire : ¬ hybCkptFires c10P c10S2 := by
    intro hf
    have h2 := hf.2
    rw [hclamp] at h2
    norm_num [c10P, c10S2] at h2
  have hdtT : hybDtTrial c10P c10S2 = 71 / 40 := by
    rw [hybDtTrial, if_neg hnofire, hclamp]
  have hout : hybStepOut c10P c10S2 = ⟨[0], [0], [9 / 100], []⟩ := by
    rw [hybStepOut, hdtT]
    norm_num [c10P, c10S2]
  have htrig0 : hybTrig c10P c10S2 = 0 := rfl
  have hscaled : hybScaled c10P c10S2 = [9 / 100] := by
    rw [hybScaled, hout]
    norm_num [scaledError, scaleFactorVec, tmax, tabs, tdiv, c10P, c10S2]
  have hnorm : hybErrNorm c10P c10S2 = 9 / 100 := by
    rw [hybErrNorm, hscaled, hairer_norm_singleton]
    norm_num
  have hacc : hybErrNorm c10P c10S2 ≤ 1 := by rw [hnorm]; norm_num
  have hckpta : hybCkptAfter c10P c10S2 = 1 := by
    rw [hybCkptAfter, if_neg hnofire]
    rfl
  have holdmid : hybDtOldMid c10P c10S2 = 3 / 2 := by
    rw [hybDtOldMid, if_neg hnofire]
    rfl
  have hrest : hybDtRestored c10P c10S2 = 71 / 40 := by
    have hflag : hybFlagMid c10P c10S2 = false := by
      rw [hybFlagMid, if_neg hnofire]
      rfl
    rw [hybDtRestored, hflag]
    simp [hdtT]
  have hdtnext : hybDtNext c10P c10S2 = 71 / 4 := by
    rw [hybDtNext, hrest, hnorm,
      show c10P.safety = 9 / 10 from rfl, show c10P.minFactor = 1 / 5 from rfl,
      show c10P.maxFactor = 10 from rfl, show c10P.order = 1 from rfl,
      adapt_step_order_one]
    norm_num
  unfold hybBody
  dsimp only
  rw [if_neg (by rw [htrig0]; omega), if_pos hacc, hout, hdtT, hdtnext, hckpta,
    holdmid]
  norm_num [c10S2, c10S3]

/-- Claim C10.  In `odeint_hybrid`, whenever the step is shrunk to land
on the next requested evaluation time, `ckpt_counter` is incremented
immediately - before acceptance is decided - in every outcome of the
iteration (event, accept, reject).  Consequently a rejected shrunk
trial permanently skips that requested time: in the concrete run the
first trial targets the requested time 1, is rejected by error
control, and the finished run's sample times are `[0, 9/40, 2]`, which
omit the requested time 1. -/
theorem C10_ckpt_increment_before_accept :
    (∀ (P : HybParams) (s s' : HybState), hybCkptFires P s →
      hybBody P s = some s' → s'.ckptCounter = s.ckptCounter + 1) ∧
      ((1 : ℝ) ∈ c10P.tEval ∧ 1 < hybErrNorm c10P c10S ∧
        hybCkptFires c10P c10S ∧
        hybLoop c10P 4 c10S = some c10S3 ∧
        c10S3.evalTimes = [0, 9 / 40, 2] ∧ (1 : ℝ) ∉ c10S3.evalTimes) := by
  constructor
  · intro P s s' hf hb
    have hc : hybCkptAfter P s = s.ckptCounter + 1 := by
      rw [hybCkptAfter, if_pos hf]
    unfold hybBody at hb
    dsimp only at hb
    split at hb
    · split at hb
      · exact Option.noConfusion hb
      · split at hb
        · exact Option.noConfusion hb
        · injection hb with h
          subst h
          exact hc
    · split at hb
      · injection hb with h
        subst h
        exact hc
      · injection hb with h
        subst h
        exact hc
  · have hfires : hybCkptFires c10P c10S := by
      refine ⟨by norm_num [c10P, c10S], ?_⟩
      rw [hybDtClamped]
      norm_num [c10P, c10S]
    have hdtT : hybDtTrial c10P c10S = 1 := by
      rw [hybDtTrial, if_pos hfires]
      norm_num [c10P, c10S]
    have hout : hybStepOut c10P c10S = ⟨[0], [0], [2], []⟩ := by
      rw [hybStepOut, hdtT]
      norm_num [c10P, c10S]
    have hscaled : hybScaled c10P c10S = [2] := by
      rw [hybScaled, hout]
      norm_num [scaledError, scaleFactorVec, tmax, tabs, tdiv, c10P, c10S]
    have hnorm : hybErrNorm c10P c10S = 2 := by
      rw [hybErrNorm, hscaled, hairer_norm_singleton]
      norm_num
    have hloop : hybLoop c10P 4 c10S = some c10S3 := by
      have g1 : c10S.t < c10P.T ∧ c10S.jnum < c10P.jSpan :=
        ⟨by norm_num [c10P, c10S], by norm_num [c10P, c10S]⟩
      have g2 : c10S1.t < c10P.T ∧ c10S1.jnum < c10P.jSpan :=
        ⟨by norm_num [c10P, c10S1], by norm_num [c10P, c10S1]⟩
      have g3 : c10S2.t < c10P.T ∧ c10S2.jnum < c10P.jSpan :=
        ⟨by norm_num [c10P, c10S2], by norm_num [c10P, c10S2]⟩
      have g4 : ¬ (c10S3.t < c10P.T ∧ c10S3.jnum < c10P.jSpan) := by
        intro ⟨h, _⟩
        norm_num [c10P, c10S3] at h
      show hybLoop c10P (3 + 1) c10S = some c10S3
      rw [hybLoop, if_pos g1]
      simp only [c10_step1]
      show hybLoop c10P (2 + 1) c10S1 = some c10S3
      rw [hybLoop, if_pos g2]
      simp only [c10_step2]
      show hybLoop c10P (1 + 1) c10S2 = some c10S3
      rw [hybLoop, if_pos g3]
      simp only [c10_step3]
      show hybLoop c10P (0 + 1) c10S3 = some c10S3
      rw [hybLoop, if_neg g4]
    refine ⟨by norm_num [c10P], by rw [hnorm]; norm_num, hfires, hloop,
      rfl, ?_⟩
    norm_num [c10S3]

/-- Witness for the universally quantified part of
C10_ckpt_increment_before_accept: the first iteration of the C10 run
fires the checkpoint shrink and its counter advances from 0 to 1 even
though the trial is rejected. -/
theorem C10_ckpt_increment_witness :
    (hybCkptFires c10P c10S ∧ hybBody c10P c10S = some c10S1) ∧
      c10S1.ckptCounter = c10S.ckptCounter + 1 := by
  have hfires : hybCkptFires c10P c10S := by
    refine ⟨by norm_num [c10P, c10S], ?_⟩
    rw [hybDtClamped]
    norm_num [c10P, c10S]
  exact ⟨⟨hfires, c10_step1⟩,
    C10_ckpt_increment_before_accept.1 c10P c10S c10S1 hfires c10_step1⟩

end Torchdyn
